import Mathlib

/-!
Verification of the tee-time tracker core (`src/server.py`).

This file gives a shallow embedding, in Lean 4, of the data model and the
operations of the tracker: the ForeUP-style and GolfNow-style adapters, the
price-history store (`record_prices`), the discount-alert detector
(`detect_price_drops`), the result aggregator (`save_scan_results`) and the
scan orchestrator (`scan_course` / `run_scanner`).

Modelling conventions:
* Python floats are modelled as exact rationals (`ℚ`); `round(x, n)` is
  modelled as rounding half-up at `n` decimal digits, the standard exact
  idealization of float rounding.
* Python strings compared with `<` (ISO date strings in the retention sweep)
  are modelled as Lean `String`s compared code-point-lexicographically by
  `strLt`, which is exactly Python's string ordering on these strings.
* JSON dictionaries read by the adapters are modelled by structures holding
  the values the code extracts; a numeric field read with
  `float(slot.get(k, d) or d)` is a `PyNum` (absent/falsy, a parsed value, or
  a malformed value that raises and discards the slot).
* `datetime.now()` and the derived 30-day retention cutoff are passed as
  explicit `now` / `cutoff` string parameters.
* Network calls are oracles: each fetching function takes the (already
  decoded) upstream response as an argument, with an explicit constructor for
  transport/JSON failure where the code distinguishes it.
* Python dicts keyed by strings are association lists in insertion order,
  matching the insertion-ordered semantics of Python dicts.
-/

/-- Floor of a rational number, computed on the numerator and denominator
(`Int.fdiv` is floor division). Agrees with `Int.floor` but reduces in the
kernel. -/
def ratFloor (q : ℚ) : ℤ := q.num.fdiv q.den

/-- Model of Python `round(x, 1)`: round half-up at one decimal digit. -/
def round1 (q : ℚ) : ℚ := (ratFloor (q * 10 + 1 / 2) : ℚ) / 10

/-- Model of Python `round(x, 2)`: round half-up at two decimal digits. -/
def round2 (q : ℚ) : ℚ := (ratFloor (q * 100 + 1 / 2) : ℚ) / 100

/-- Code-point lexicographic comparison of character lists, as Python's `<`
on strings. -/
def strLtAux : List Char → List Char → Bool
  | [], [] => false
  | [], _ :: _ => true
  | _ :: _, [] => false
  | a :: as, b :: bs =>
    if a.toNat < b.toNat then true
    else if b.toNat < a.toNat then false
    else strLtAux as bs

/-- Python string `<` (code-point lexicographic). On ISO `YYYY-MM-DD` date
strings this is chronological order, which is how `record_prices` compares
tee dates against the retention cutoff. -/
def strLt (a b : String) : Bool := strLtAux a.data b.data

/-- Python `min` over a nonempty list (`min(prices)`); returns 0 on the empty
list, on which the code never calls it. -/
def pyMin : List ℚ → ℚ
  | [] => 0
  | x :: xs => xs.foldl min x

/-- Python `max` over a nonempty list (`max(prices)`); returns 0 on the empty
list, on which the code never calls it. -/
def pyMax : List ℚ → ℚ
  | [] => 0
  | x :: xs => xs.foldl max x

/-- Python `sum` over a list of numbers. -/
def pySum (l : List ℚ) : ℚ := l.foldl (· + ·) 0

/-- Python `l[-n:]`: the suffix of the most recent `n` elements. -/
def lastN (n : ℕ) (l : List α) : List α := l.drop (l.length - n)

/-- Parse an `"HH:MM"` clock string into minutes after midnight (used only to
state the even-spacing property of the synthesized placeholder times). -/
def parseHM (s : String) : Option ℕ :=
  match s.splitOn ":" with
  | [h, m] =>
    match h.toNat?, m.toNat? with
    | some hh, some mm => some (hh * 60 + mm)
    | _, _ => none
  | _ => none

/-- A numeric JSON field as the adapters read it with
`float(slot.get(key, default) or default)`:
`missing` covers an absent key or a falsy value (the default is used),
`val` a parseable numeric value, and `malformed` a value on which
`float(...)` raises `ValueError`/`TypeError`, discarding the slot. -/
inductive PyNum where
  | missing
  | val (q : ℚ)
  | malformed
  deriving DecidableEq

/-- Evaluate `float(slot.get(key, d) or d)`: `none` means the conversion
raised, so the surrounding `except` discards the slot. -/
def PyNum.toQ (d : ℚ) : PyNum → Option ℚ
  | .missing => some d
  | .val q => some q
  | .malformed => none

/-- An integer JSON field as read with `int(slot.get(key, default) or default)`. -/
inductive PyCount where
  | missing
  | val (n : ℕ)
  | malformed
  deriving DecidableEq

/-- Evaluate `int(slot.get(key, d) or d)`: `none` means the conversion
raised, so the surrounding `except` discards the slot. -/
def PyCount.toCount (d : ℕ) : PyCount → Option ℕ
  | .missing => some d
  | .val n => some n
  | .malformed => none

/-- Canonical tee-time slot, the record shape every adapter produces
(`time`, `datetime`, fees, capacity, rate metadata, source tag, booking
link), plus the course metadata keys added by `scan_course` decoration.
`dt` is the `"datetime"` key; `course_type` the `"course_type"` key. The
human-readable field values default to the values the code uses when the key
is absent. -/
structure TeeTime where
  time : String := ""
  dt : String := ""
  holes : ℕ := 18
  players_available : ℕ := 4
  green_fee : ℚ := 0
  cart_fee : ℚ := 0
  total_per_player : ℚ := 0
  rate_type : String := "standard"
  booking_url : String := ""
  has_special : Bool := false
  special_discount : ℚ := 0
  booking_class : String := ""
  source : String := ""
  course_name : String := ""
  course_city : String := ""
  course_state : String := ""
  course_type : String := "public"
  course_rating : ℚ := 0
  course_par : ℕ := 72
  course_holes : ℕ := 18
  lat : Option ℚ := none
  lng : Option ℚ := none
  deriving DecidableEq

instance : Inhabited TeeTime := ⟨{}⟩

/-- The list comprehension
`[t["total_per_player"] for t in tee_times if t.get("total_per_player", 0) > 0]`
used by `record_prices`, `save_scan_results` and `detect_price_drops`. -/
def pricedPrices (tee_times : List TeeTime) : List ℚ :=
  tee_times.filterMap fun t =>
    if 0 < t.total_per_player then some t.total_per_player else none

/-- Falsy test for an optional string id (`not course_id`): absent or empty. -/
def strFalsy : Option String → Bool
  | none => true
  | some s => s = ""

/-- One raw slot object of a ForeUP `/api/booking/times` JSON response, holding
the values `_parse_api_response` extracts from it. `available_spots` models
`slot.get("available_spots", slot.get("available", 4))`. -/
structure ForeUpRawSlot where
  time : String := ""
  green_fee : PyNum := .missing
  cart_fee : PyNum := .missing
  available_spots : PyCount := .missing
  holes : PyCount := .missing
  rate_type : String := "standard"
  has_special : Bool := false
  special_discount_percentage : PyNum := .missing
  booking_class_id : String := ""
  deriving DecidableEq

/-- The ForeUP booking deep-link built for each parsed slot. -/
def foreUpBookingUrl (course_id schedule_id date_str : String) : String :=
  "https://foreupsoftware.com/index.php/booking/" ++ course_id ++ "/" ++
    schedule_id ++ "#date=" ++ date_str

/-- Parse one raw ForeUP API slot into a canonical slot: a slot with an empty
time is skipped, a slot on which a numeric conversion raises is discarded
(`except (ValueError, TypeError): continue`), otherwise
`total_per_player = green_fee + cart_fee`. -/
def parseForeUpSlot (course_id schedule_id date_str : String)
    (s : ForeUpRawSlot) : Option TeeTime :=
  if s.time = "" then none
  else
    match s.green_fee.toQ 0, s.cart_fee.toQ 0, s.available_spots.toCount 4,
        s.holes.toCount 18, s.special_discount_percentage.toQ 0 with
    | some gf, some cf, some avail, some h, some sd =>
      some { time := s.time
             dt := date_str ++ "T" ++ s.time ++ ":00"
             holes := h
             players_available := avail
             green_fee := gf
             cart_fee := cf
             total_per_player := gf + cf
             rate_type := s.rate_type
             booking_url := foreUpBookingUrl course_id schedule_id date_str
             has_special := s.has_special
             special_discount := sd
             booking_class := s.booking_class_id
             source := "foreup" }
    | _, _, _, _, _ => none

/-- `ForeUpScraper._parse_api_response` on the slot list extracted from the
response body: per-slot parse failures discard only that slot. -/
def parseApiResponse (slots : List ForeUpRawSlot)
    (course_id schedule_id date_str : String) : List TeeTime :=
  slots.filterMap (parseForeUpSlot course_id schedule_id date_str)

/-- Outcome of the primary ForeUP API call as `_fetch_via_api` distinguishes
it: transport/HTTP/JSON failure; HTTP 200 whose JSON body is the boolean
`false` or `null` (the recognized "closed / not open for booking" sentinel);
or HTTP 200 with a decoded slot list. -/
inductive ForeUpApiResp where
  | failure
  | sentinel
  | payload (slots : List ForeUpRawSlot)
  deriving DecidableEq

/-- `ForeUpScraper._fetch_via_api`: failures and the sentinel both yield the
empty list; a payload yields its parse, and the function also returns the
empty list when parsing yields no usable slot. -/
def fetchViaApi (course_id schedule_id date_str : String) :
    ForeUpApiResp → List TeeTime
  | .failure => []
  | .sentinel => []
  | .payload slots =>
    let parsed := parseApiResponse slots course_id schedule_id date_str
    if parsed.isEmpty then [] else parsed

/-- One time element selected from the booking-page HTML by
`_fetch_via_html`, holding the extracted time text (empty when absent) and
the price extracted by the `$([\d.]+)` pattern (`none` when no price element
or no match, in which case the price defaults to 0). -/
structure HtmlTimeEl where
  time_str : String := ""
  price : Option ℚ := none
  deriving DecidableEq

/-- `ForeUpScraper._fetch_via_html` on the time elements selected from the
booking page: elements with an empty time are skipped; each produced slot
carries the extracted price as its aggregate `total_per_player` with
`cart_fee = 0`. -/
def fetchViaHtml (course_id schedule_id date_str : String)
    (players holes : ℕ) (els : List HtmlTimeEl) : List TeeTime :=
  els.filterMap fun el =>
    if el.time_str = "" then none
    else
      some { time := el.time_str
             dt := date_str ++ "T" ++ el.time_str ++ ":00"
             holes := holes
             players_available := players
             green_fee := el.price.getD 0
             cart_fee := 0
             total_per_player := el.price.getD 0
             rate_type := "standard"
             booking_url := foreUpBookingUrl course_id schedule_id date_str
             source := "foreup_html" }

/-- Result of `ForeUpScraper.get_tee_times`, instrumented with whether the
HTML-scraping fallback tier was invoked. -/
structure ForeUpFetchResult where
  times : List TeeTime
  html_attempted : Bool
  deriving DecidableEq

/-- `ForeUpScraper.get_tee_times`: a course missing either platform id is
skipped before any network call; otherwise the primary API result is
returned when nonempty, and the HTML fallback is attempted whenever the
primary tier produced the empty list. -/
def foreUpGetTeeTimes (course_id? schedule_id? : Option String)
    (date_str : String) (players holes : ℕ)
    (api : ForeUpApiResp) (page : List HtmlTimeEl) : ForeUpFetchResult :=
  if strFalsy course_id? || strFalsy schedule_id? then
    { times := [], html_attempted := false }
  else
    match course_id?, schedule_id? with
    | some cid, some sid =>
      let times := fetchViaApi cid sid date_str api
      if times.isEmpty then
        { times := fetchViaHtml cid sid date_str players holes page
          html_attempted := true }
      else { times := times, html_attempted := false }
    | _, _ => { times := [], html_attempted := false }

/-- One per-day facility summary object from the GolfNow
`/api/tee-times/facility/{id}/summaries` endpoint, holding the values
`get_course_tee_times` extracts: the availability count and the
`minPrice.value` / `maxPrice.value` fields (already defaulted to 0 via
`.get(...).get("value", 0) or 0`). -/
structure GnSummary where
  numberOfTeeTimesAvailable : ℕ := 0
  minPrice : ℚ := 0
  maxPrice : ℚ := 0
  deriving DecidableEq

/-- One raw slot of a GolfNow `featured-facility-result` response, holding the
values `_parse_featured_result` extracts. Each field models the first
non-falsy value of the or-chain over the casing variants the parser
tolerates (for example `price or Price or totalPrice or TotalPrice or
greensFee or GreensFee or 0` becomes `price`, with `missing` when every
variant is absent or falsy). -/
structure GnRawSlot where
  time : String := ""
  price : PyNum := .missing
  cartFee : PyNum := .missing
  maxPlayers : PyCount := .missing
  holes : PyCount := .missing
  isHotDeal : Bool := false
  deriving DecidableEq

/-- Zero-pad a number to two digits, as `strftime("%H:%M")` does. -/
def pad2 (n : ℕ) : String := if n < 10 then "0" ++ toString n else toString n

/-- Model of the `"%I:%M %p"` → `"%H:%M"` normalization in
`_parse_featured_result`: when the time text mentions AM or PM, parse it as a
12-hour clock time and reformat as 24-hour; when `strptime` raises, the text
is left unchanged (`except Exception: pass`). -/
def normalizeAmPm (s : String) : String :=
  if (s.splitOn "AM").length > 1 || (s.splitOn "PM").length > 1 then
    match (s.trim).splitOn " " with
    | [hm, ap] =>
      match hm.splitOn ":" with
      | [h, m] =>
        match h.toNat?, m.toNat? with
        | some hh, some mm =>
          if 1 ≤ hh && hh ≤ 12 && mm ≤ 59 && (ap = "AM" || ap = "PM") then
            let hh24 := if ap = "AM" then (if hh = 12 then 0 else hh)
                        else (if hh = 12 then 12 else hh + 12)
            pad2 hh24 ++ ":" ++ pad2 mm
          else s
        | _, _ => s
      | _ => s
    | _ => s
  else s

/-- The GolfNow booking deep-link built for each parsed slot. -/
def gnBookingUrl (golfnow_id : String) : String :=
  "https://www.golfnow.com/tee-times/facility/" ++ golfnow_id ++ "/search"

/-- Parse one raw GolfNow detail slot into a canonical slot: a slot with an
empty time is skipped, a slot on which a numeric conversion raises is
discarded, otherwise `total_per_player = price + cart`. -/
def parseGnSlot (golfnow_id date_iso : String) (s : GnRawSlot) :
    Option TeeTime :=
  if s.time = "" then none
  else
    let t := normalizeAmPm s.time
    match s.price.toQ 0, s.cartFee.toQ 0, s.maxPlayers.toCount 4,
        s.holes.toCount 18 with
    | some price, some cart, some avail, some h =>
      some { time := t
             dt := date_iso ++ "T" ++ t ++ ":00"
             holes := h
             players_available := avail
             green_fee := price
             cart_fee := cart
             total_per_player := price + cart
             rate_type := if s.isHotDeal then "hot_deal" else "standard"
             has_special := s.isHotDeal
             special_discount := 0
             booking_url := gnBookingUrl golfnow_id
             source := "golfnow" }
    | _, _, _, _ => none

/-- `GolfNowScraper._parse_featured_result` on the slot list extracted from
the response body: per-slot parse failures discard only that slot. -/
def parseFeaturedResult (slots : List GnRawSlot)
    (golfnow_id date_iso : String) : List TeeTime :=
  slots.filterMap (parseGnSlot golfnow_id date_iso)

/-- The fixed placeholder clock times used by the synthesis fallback. -/
def sample_times : List String := ["07:00", "09:00", "11:00", "13:00", "15:00"]

/-- `GolfNowScraper._synthesize_from_summary`: when the count or the
summary's minimum price is falsy, nothing is synthesized; otherwise the
first `min(count, 5)` placeholder times are emitted, each priced at the
summary's minimum price with `cart_fee = 0`. -/
def synthesizeFromSummary (summary : GnSummary)
    (golfnow_id date_iso : String) (min_price _max_price : ℚ) :
    List TeeTime :=
  let count := summary.numberOfTeeTimesAvailable
  if count = 0 || min_price = 0 then []
  else
    (sample_times.take (min count 5)).map fun t =>
      { time := t
        dt := date_iso ++ "T" ++ t ++ ":00"
        holes := 18
        players_available := 4
        green_fee := min_price
        cart_fee := 0
        total_per_player := min_price
        rate_type := "standard"
        has_special := false
        special_discount := 0
        booking_url := gnBookingUrl golfnow_id
        source := "golfnow" }

/-- `GolfNowScraper.get_course_tee_times`: a course without a `golfnow_id` is
skipped; a missing summary or a zero availability count stops before the
detail fetch; a nonempty detail parse is returned as is; otherwise slots are
synthesized from the summary. The detail response is given as the raw slot
list the detail fetch decoded (a failed detail fetch decodes to no slots). -/
def getCourseTeeTimes (golfnow_id? : Option String) (date_iso : String)
    (summary? : Option GnSummary) (detail : List GnRawSlot) : List TeeTime :=
  if strFalsy golfnow_id? then []
  else
    match golfnow_id? with
    | none => []
    | some gid =>
      match summary? with
      | none => []
      | some summary =>
        if summary.numberOfTeeTimesAvailable = 0 then []
        else
          let min_price := summary.minPrice
          let max_price := summary.maxPrice
          let slots := parseFeaturedResult detail gid date_iso
          if slots.isEmpty then
            synthesizeFromSummary summary gid date_iso min_price max_price
          else slots

/-- One price observation for a (course, date) pair, as `record_prices`
builds it. -/
structure PriceSnapshot where
  timestamp : String
  min_price : ℚ
  max_price : ℚ
  avg_price : ℚ
  num_times : ℕ
  num_priced : ℕ
  deriving DecidableEq

/-- One value of the price-history document: the course name, the tee date
and the ordered snapshot list for that (course, date) key. -/
structure HistoryEntry where
  course : String
  date : String
  snapshots : List PriceSnapshot
  deriving DecidableEq

/-- The price-history document: a mapping from `"{course_name}:{date}"` keys
to history entries, in insertion order. -/
abbrev PriceHistory := List (String × HistoryEntry)

/-- The `"{course_name}:{date}"` key of the price-history document. -/
def historyKey (course_name date_str : String) : String :=
  course_name ++ ":" ++ date_str

/-- The snapshot `record_prices` appends when at least one slot has a
positive total price. -/
def mkSnapshot (now : String) (tee_times : List TeeTime) : PriceSnapshot :=
  let prices := pricedPrices tee_times
  { timestamp := now
    min_price := pyMin prices
    max_price := pyMax prices
    avg_price := round2 (pySum prices / prices.length)
    num_times := tee_times.length
    num_priced := prices.length }

/-- `record_prices(course_name, tee_times, target_date)`: ensure the
(course, date) entry exists, append a snapshot when some slot has a positive
total price (trimming to the most recent 48), then sweep every entry whose
tee date is lexicographically before the 30-day cutoff, and persist the
result. `now` models `datetime.now().isoformat()` and `cutoff` models
`(datetime.now() - timedelta(days=30)).strftime("%Y-%m-%d")`. -/
def recordPrices (course_name : String) (tee_times : List TeeTime)
    (date_str now cutoff : String) (history : PriceHistory) : PriceHistory :=
  let key := historyKey course_name date_str
  let history₁ :=
    if history.any (fun p => p.1 = key) then history
    else history ++ [(key, { course := course_name, date := date_str, snapshots := [] })]
  let prices := pricedPrices tee_times
  let history₂ :=
    if prices.isEmpty then history₁
    else
      history₁.map fun p =>
        if p.1 = key then
          (p.1, { p.2 with
                  snapshots := lastN 48 (p.2.snapshots ++ [mkSnapshot now tee_times]) })
        else p
  history₂.filter fun p => !(strLt p.2.date cutoff)

/-- A discount alert as `detect_price_drops` emits it. The human-readable
`message` string is presentation-only float formatting and is not modelled. -/
structure PriceAlert where
  course : String
  current_low : ℚ
  historical_avg : ℚ
  discount_pct : ℚ
  deriving DecidableEq

/-- Group slots by a string key into insertion-ordered buckets, as iterating
a Python dict of lists built with repeated appends: the bucket order is the
order of first occurrence of each key, and each bucket keeps slot order. -/
def addToGroups (key : TeeTime → String) (gs : List (String × List TeeTime))
    (tt : TeeTime) : List (String × List TeeTime) :=
  if gs.any (fun g => g.1 = key tt) then
    gs.map fun g => if g.1 = key tt then (g.1, g.2 ++ [tt]) else g
  else gs ++ [(key tt, [tt])]

/-- The `by_course` grouping dict built by `save_scan_results` and
`detect_price_drops` (both group by the `course_name` key, which is total in
this model, so the two lookup defaults `"Unknown"` and `""` never apply). -/
def groupByCourse (l : List TeeTime) : List (String × List TeeTime) :=
  l.foldl (addToGroups (fun t => t.course_name)) []

/-- The historical `avg_price` baseline `detect_price_drops` gathers for one
course: every snapshot's average price across all tracked dates of that
course. -/
def courseSnapshotAvgs (history : PriceHistory) (course_name : String) :
    List ℚ :=
  (history.filter (fun p => p.2.course = course_name)).flatMap
    (fun p => p.2.snapshots.map (fun s => s.avg_price))

/-- The unrounded discount percentage `detect_price_drops` computes. -/
def rawDiscountPct (historical_avg current_min : ℚ) : ℚ :=
  (historical_avg - current_min) / historical_avg * 100

/-- The `current_min = min(current_prices)` of the `detect_price_drops`
loop. -/
def currentMin (times : List TeeTime) : ℚ := pyMin (pricedPrices times)

/-- The `historical_avg = sum(course_snapshots) / len(course_snapshots)` of
the `detect_price_drops` loop. -/
def histAvg (history : PriceHistory) (course_name : String) : ℚ :=
  pySum (courseSnapshotAvgs history course_name) /
    (courseSnapshotAvgs history course_name).length

/-- The per-course body of the `detect_price_drops` loop: `none` when the
course has no positively priced current slot, no recorded snapshot, a
non-positive historical average, or a discount below 15%. -/
def alertForCourse (history : PriceHistory) (course_name : String)
    (times : List TeeTime) : Option PriceAlert :=
  if (pricedPrices times).isEmpty then none
  else
    let current_min := currentMin times
    if (courseSnapshotAvgs history course_name).isEmpty then none
    else
      let historical_avg := histAvg history course_name
      if 0 < historical_avg then
        let discount_pct := rawDiscountPct historical_avg current_min
        if 15 ≤ discount_pct then
          some { course := course_name
                 current_low := current_min
                 historical_avg := round2 historical_avg
                 discount_pct := round1 discount_pct }
        else none
      else none

/-- `detect_price_drops(current_times)`: group the scan's slots by course,
emit one alert per qualifying course, and sort the alerts descending by
discount percentage (`sorted(..., reverse=True)` is a stable merge sort). -/
def detectPriceDrops (history : PriceHistory) (current_times : List TeeTime) :
    List PriceAlert :=
  let alerts := (groupByCourse current_times).filterMap
    (fun g => alertForCourse history g.1 g.2)
  alerts.mergeSort (fun a b => decide (b.discount_pct ≤ a.discount_pct))

/-- One per-course summary of the scan-result snapshot: the course metadata
captured from the first slot of the course's bucket, with min/max/avg price
over the positively priced slots (0 when there are none) and the slot count;
the raw `times` list is deleted before the summary is stored. -/
structure CourseSummary where
  course_name : String
  city : String
  state : String
  ctype : String
  rating : ℚ
  par : ℕ
  holes : ℕ
  lat : Option ℚ
  lng : Option ℚ
  min_price : ℚ
  max_price : ℚ
  avg_price : ℚ
  num_times : ℕ
  deriving DecidableEq

/-- Build one course summary from a `by_course` bucket, as
`save_scan_results` does (`ctype` is the `"type"` key). -/
def summarize (g : String × List TeeTime) : CourseSummary :=
  let first := g.2.headI
  let prices := pricedPrices g.2
  { course_name := g.1
    city := first.course_city
    state := first.course_state
    ctype := first.course_type
    rating := first.course_rating
    par := first.course_par
    holes := first.course_holes
    lat := first.lat
    lng := first.lng
    min_price := if prices.isEmpty then 0 else pyMin prices
    max_price := if prices.isEmpty then 0 else pyMax prices
    avg_price := if prices.isEmpty then 0 else round2 (pySum prices / prices.length)
    num_times := g.2.length }

/-- The scan-result snapshot document written by `save_scan_results`. The
`lastUpdated` and `scanDate` clock strings are presentation metadata and are
not modelled. -/
structure ScanOutput where
  totalTimes : ℕ
  totalCourses : ℕ
  courseSummaries : List CourseSummary
  teeTimes : List TeeTime
  priceAlerts : List PriceAlert
  deriving DecidableEq

/-- `save_scan_results(results)`: group by course, summarize each bucket,
sort the summaries ascending by `min_price` (every summary carries a
`min_price`, so the lookup default 999 in the sort key never applies), cap
the raw slot list at 500 and embed the detector's alerts. -/
def saveScanResults (history : PriceHistory) (results : List TeeTime) :
    ScanOutput :=
  let by_course := groupByCourse results
  let course_summaries := by_course.map summarize
  { totalTimes := results.length
    totalCourses := by_course.length
    courseSummaries :=
      course_summaries.mergeSort (fun a b => decide (a.min_price ≤ b.min_price))
    teeTimes := results.take 500
    priceAlerts := detectPriceDrops history results }

/-- A course of the catalog with its platform tag and platform-specific
identifiers (`ctype` is the `"type"` key). -/
structure Course where
  name : String
  city : String := ""
  state : String := ""
  lat : Option ℚ := none
  lng : Option ℚ := none
  platform : String := ""
  platform_id : Option String := none
  schedule_id : Option String := none
  golfnow_id : Option String := none
  holes : ℕ := 18
  ctype : String := "public"
  par : ℕ := 72
  rating : ℚ := 0
  deriving DecidableEq

/-- The decoration loop of `scan_course`: stamp the course's static metadata
onto a slot. -/
def decorate (course : Course) (tt : TeeTime) : TeeTime :=
  { tt with
    course_name := course.name
    course_city := course.city
    course_state := course.state
    course_type := course.ctype
    course_rating := course.rating
    course_par := course.par
    course_holes := course.holes
    lat := course.lat
    lng := course.lng }

/-- `scan_course(course, target_date, players)`, with the two module-level
adapter instances passed explicitly: the ForeUP adapter is `none` when
`FOREUP_ENABLED` is false, and each adapter is the function from a course to
the slots its network fetch produced. A platform tag other than `"foreup"`
or `"golfnow"` selects no adapter and resolves to the empty list. -/
def scanCourse (foreup? : Option (Course → List TeeTime))
    (golfnow : Course → List TeeTime) (course : Course) : List TeeTime :=
  let tee_times :=
    if course.platform = "foreup" then
      match foreup? with
      | some f => f course
      | none => []
    else if course.platform = "golfnow" then golfnow course
    else []
  tee_times.map (decorate course)

/-- The completed result of one per-course task of the scan pool: either the
slot list `scan_course` returned, or the exception its call raised. -/
inductive TaskOutcome where
  | ok (times : List TeeTime)
  | exn
  deriving DecidableEq

/-- The orchestrator's running state across `run_scanner`: the combined slot
list, the success and error counters and the threaded price-history
document. -/
structure ScanState where
  all_results : List TeeTime
  success : ℕ
  errors : ℕ
  history : PriceHistory
  deriving DecidableEq

/-- One iteration of the first `as_completed` loop of `run_scanner`: a raised
task is caught and counted as an error; a nonempty result is appended to the
combined list, recorded into the price history and counted as a success; an
empty result is only logged. -/
def scanStep (date_str now cutoff : String) (st : ScanState)
    (task : Course × TaskOutcome) : ScanState :=
  match task.2 with
  | .ok times =>
    if times.isEmpty then st
    else
      { st with
        all_results := st.all_results ++ times
        history := recordPrices task.1.name times date_str now cutoff st.history
        success := st.success + 1 }
  | .exn => { st with errors := st.errors + 1 }

/-- One iteration of the second-day `as_completed` loop of `run_scanner`:
failures are swallowed without error counting, nonempty results are merged
and recorded. -/
def scanStep2 (date_str now cutoff : String) (st : ScanState)
    (task : Course × TaskOutcome) : ScanState :=
  match task.2 with
  | .ok times =>
    if times.isEmpty then st
    else
      { st with
        all_results := st.all_results ++ times
        history := recordPrices task.1.name times date_str now cutoff st.history }
  | .exn => st

/-- The outcome of one full `run_scanner` call: the final orchestrator state
and the scan-result document it wrote. -/
structure ScanReport where
  state : ScanState
  saved : ScanOutput
  deriving DecidableEq

/-- `run_scanner(target_date)`: process every course's completed task for the
target date (in completion order), then every task of the following day's
silent pass, then write the scan-result snapshot from the combined slot
list. `pass1` and `pass2` list each course with its task's outcome in the
order `as_completed` yields them. -/
def runScanner (date1 date2 now cutoff : String) (history₀ : PriceHistory)
    (pass1 pass2 : List (Course × TaskOutcome)) : ScanReport :=
  let st₁ := pass1.foldl (scanStep date1 now cutoff)
    { all_results := [], success := 0, errors := 0, history := history₀ }
  let st₂ := pass2.foldl (scanStep2 date2 now cutoff) st₁
  { state := st₂, saved := saveScanResults st₂.history st₂.all_results }

/-! ### Helper lemmas -/

theorem pricedPrices_pos (l : List TeeTime) : ∀ q ∈ pricedPrices l, 0 < q := by
  intro q hq
  simp only [pricedPrices, List.mem_filterMap] at hq
  obtain ⟨t, _, ht⟩ := hq
  by_cases h : 0 < t.total_per_player
  · simp only [if_pos h, Option.some.injEq] at ht
    exact ht ▸ h
  · simp [if_neg h] at ht

theorem foldl_min_pos {x : ℚ} (xs : List ℚ) (hx : 0 < x)
    (hxs : ∀ y ∈ xs, 0 < y) : 0 < xs.foldl min x := by
  induction xs generalizing x with
  | nil => exact hx
  | cons y ys ih =>
    refine ih (lt_min hx (hxs y (by simp))) fun z hz => hxs z (by simp [hz])

theorem pyMin_pos (l : List ℚ) (hne : l ≠ []) (hpos : ∀ y ∈ l, 0 < y) :
    0 < pyMin l := by
  cases l with
  | nil => exact absurd rfl hne
  | cons x xs =>
    exact foldl_min_pos xs (hpos x (by simp)) fun y hy => hpos y (by simp [hy])

theorem lastN_length_le (n : ℕ) (l : List α) : (lastN n l).length ≤ n := by
  simp only [lastN, List.length_drop]
  omega

theorem lastN_eq_tail_append {s : List α} (x : α) (hs : s.length = 48) :
    lastN 48 (s ++ [x]) = s.tail ++ [x] := by
  cases s with
  | nil => simp at hs
  | cons a t =>
    have ht : t.length = 47 := by simpa using hs
    have hlen : ((a :: t) ++ [x]).length - 48 = 1 := by
      simp only [List.length_append, List.length_cons, List.length_nil, ht]
    unfold lastN
    rw [hlen]
    simp [List.cons_append]

theorem map_fst_addToGroups (key : TeeTime → String)
    (gs : List (String × List TeeTime)) (tt : TeeTime) :
    (addToGroups key gs tt).map Prod.fst =
      if gs.any (fun g => g.1 = key tt) then gs.map Prod.fst
      else gs.map Prod.fst ++ [key tt] := by
  unfold addToGroups
  split
  · rw [List.map_map]
    exact List.map_congr_left fun g _ => by dsimp only [Function.comp]; split <;> rfl
  · simp

theorem nodup_keys_foldl (key : TeeTime → String) (l : List TeeTime) :
    ∀ gs : List (String × List TeeTime), (gs.map Prod.fst).Nodup →
      (((l.foldl (addToGroups key) gs).map Prod.fst)).Nodup := by
  induction l with
  | nil => intro gs h; simpa using h
  | cons t ts ih =>
    intro gs h
    rw [List.foldl_cons]
    refine ih _ ?_
    rw [map_fst_addToGroups]
    split
    · exact h
    · rename_i hany
      rw [List.nodup_append]
      refine ⟨h, List.nodup_singleton _, ?_⟩
      intro a ha hb
      simp only [List.mem_singleton] at hb
      subst hb
      simp only [List.mem_map] at ha
      obtain ⟨g, hg, hfst⟩ := ha
      have : gs.any (fun g => g.1 = key t) = true :=
        List.any_eq_true.mpr ⟨g, hg, by simp [hfst]⟩
      simp [this] at hany

theorem groupByCourse_keys_nodup (l : List TeeTime) :
    ((groupByCourse l).map Prod.fst).Nodup :=
  nodup_keys_foldl _ l [] (by simp)

theorem keyed_mem_unique {β : Type} {ps : List (String × β)}
    (hnd : (ps.map Prod.fst).Nodup) {k : String} {a b : β}
    (ha : (k, a) ∈ ps) (hb : (k, b) ∈ ps) : a = b := by
  have := List.inj_on_of_nodup_map hnd ha hb rfl
  exact congrArg Prod.snd this

theorem sorted_mergeSortKey {α : Type} (f : α → ℚ) (l : List α) :
    (l.mergeSort (fun a b => decide (f a ≤ f b))).Pairwise
      (fun a b => f a ≤ f b) := by
  have h := @List.sorted_mergeSort _ (fun a b => decide (f a ≤ f b))
    (fun a b c h1 h2 => by
      simp only [decide_eq_true_eq] at h1 h2 ⊢; exact le_trans h1 h2)
    (fun a b => by simpa using le_total (f a) (f b)) l
  exact h.imp (by simp)

/-! ### Claim C2: ForeUP sentinel handling -/

/-- A sample HTML time element for exercising the ForeUP HTML fallback. -/
def exHtmlEl : HtmlTimeEl := { time_str := "07:30", price := some 65 }

/-- Claim C2, as stated, is false: when the primary ForeUP API call returns
the recognized closed/not-open sentinel, `get_tee_times` does not return
the empty list unconditionally — `_fetch_via_api` returns the empty list,
which `get_tee_times` cannot distinguish from a failed primary call, so it
does attempt the HTML-scraping fallback and returns whatever the fallback
scraped. Concretely, with the sentinel response and a booking page holding
one time element, the fallback runs and the result is nonempty. -/
theorem foreup_sentinel_attempts_html_fallback :
    (foreUpGetTeeTimes (some "19765") (some "2433") "2026-02-24" 4 18
      ForeUpApiResp.sentinel [exHtmlEl]).html_attempted = true ∧
    (foreUpGetTeeTimes (some "19765") (some "2433") "2026-02-24" 4 18
      ForeUpApiResp.sentinel [exHtmlEl]).times ≠ [] := by
  with_unfolding_all decide

/-- Claim C2, amended: when the primary ForeUP API call returns the
closed/not-open sentinel, the primary tier yields the empty list (a defined
empty result, not an error), and `get_tee_times` then attempts the
HTML-scraping fallback, returning the fallback's (possibly empty) result. -/
theorem foreup_sentinel_empty_then_html (cid sid date_str : String)
    (players holes : ℕ) (page : List HtmlTimeEl)
    (hc : cid ≠ "") (hs : sid ≠ "") :
    fetchViaApi cid sid date_str ForeUpApiResp.sentinel = [] ∧
    foreUpGetTeeTimes (some cid) (some sid) date_str players holes
        ForeUpApiResp.sentinel page =
      { times := fetchViaHtml cid sid date_str players holes page
        html_attempted := true } := by
  refine ⟨rfl, ?_⟩
  unfold foreUpGetTeeTimes
  simp [strFalsy, hc, hs, fetchViaApi]

/-- Witness for `foreup_sentinel_empty_then_html` at concrete ids and an
empty booking page. -/
theorem foreup_sentinel_empty_then_html_witness :
    fetchViaApi "19765" "2433" "2026-02-24" ForeUpApiResp.sentinel = [] ∧
    foreUpGetTeeTimes (some "19765") (some "2433") "2026-02-24" 4 18
        ForeUpApiResp.sentinel [] =
      { times := fetchViaHtml "19765" "2433" "2026-02-24" 4 18 []
        html_attempted := true } :=
  foreup_sentinel_empty_then_html "19765" "2433" "2026-02-24" 4 18 []
    (by decide) (by decide)

/-! ### Claim C4: retention sweep on every record_prices call -/

/-- Claim C4: immediately after any `record_prices` call, every key of the
persisted price history has a tee date that is not lexicographically earlier
than the 30-day cutoff — stale histories are purged on every call, whatever
course or date the call targeted and whatever the snapshots' own
timestamps. -/
theorem record_prices_retention (course_name : String)
    (tee_times : List TeeTime) (date_str now cutoff : String)
    (history : PriceHistory) :
    ∀ p ∈ recordPrices course_name tee_times date_str now cutoff history,
      strLt p.2.date cutoff = false := by
  intro p hp
  unfold recordPrices at hp
  simp only [List.mem_filter, Bool.not_eq_eq_eq_not, Bool.not_true] at hp
  exact hp.2

/-- Witness for `record_prices_retention`: a call targeting one course also
purges an unrelated course's stale history, and the surviving entry's date
is within the window. -/
theorem record_prices_retention_witness :
    strLt "2026-10-01" "2026-09-12" = false :=
  record_prices_retention "Pine Hill" [] "2026-10-01" "t0" "2026-09-12"
    [("Old Course:2025-01-01",
      { course := "Old Course", date := "2025-01-01", snapshots := [] })]
    ("Pine Hill:2026-10-01",
      { course := "Pine Hill", date := "2026-10-01", snapshots := [] })
    (by with_unfolding_all decide)

/-! ### Claim C7: total_per_player invariant across adapter paths -/

/-- Claim C7: every canonical slot produced by the ForeUP API parse, the
ForeUP HTML fallback, the marketplace detail parse or the synthesis fallback
satisfies `total_per_player = green_fee + cart_fee`; in the two paths whose
source reports only a single aggregate price (HTML fallback and synthesis),
`cart_fee = 0` and `total_per_player` equals that price (the `green_fee`
field holding it). -/
theorem canonical_total_fee_invariant :
    (∀ cid sid ds s t, parseForeUpSlot cid sid ds s = some t →
      t.total_per_player = t.green_fee + t.cart_fee) ∧
    (∀ cid sid ds players holes els,
      ∀ t ∈ fetchViaHtml cid sid ds players holes els,
        t.total_per_player = t.green_fee + t.cart_fee ∧
        t.cart_fee = 0 ∧ t.total_per_player = t.green_fee) ∧
    (∀ slots gid ds, ∀ t ∈ parseFeaturedResult slots gid ds,
      t.total_per_player = t.green_fee + t.cart_fee) ∧
    (∀ summary gid ds mn mx,
      ∀ t ∈ synthesizeFromSummary summary gid ds mn mx,
        t.total_per_player = t.green_fee + t.cart_fee ∧
        t.cart_fee = 0 ∧ t.total_per_player = t.green_fee) := by
  refine ⟨?_, ?_, ?_, ?_⟩
  · intro cid sid ds s t ht
    unfold parseForeUpSlot at ht
    split at ht
    · exact absurd ht (by simp)
    · split at ht
      · simp only [Option.some.injEq] at ht
        subst ht
        rfl
      · exact absurd ht (by simp)
  · intro cid sid ds players holes els t ht
    simp only [fetchViaHtml, List.mem_filterMap] at ht
    obtain ⟨el, _, hel⟩ := ht
    split at hel
    · exact absurd hel (by simp)
    · simp only [Option.some.injEq] at hel
      subst hel
      exact ⟨by simp, rfl, rfl⟩
  · intro slots gid ds t ht
    simp only [parseFeaturedResult, List.mem_filterMap] at ht
    obtain ⟨s, _, hs⟩ := ht
    unfold parseGnSlot at hs
    split at hs
    · exact absurd hs (by simp)
    · split at hs
      · simp only [Option.some.injEq] at hs
        subst hs
        rfl
      · exact absurd hs (by simp)
  · intro summary gid ds mn mx t ht
    simp only [synthesizeFromSummary] at ht
    split at ht
    · simp at ht
    · simp only [List.mem_map] at ht
      obtain ⟨s, _, hs⟩ := ht
      subst hs
      exact ⟨by simp, rfl, rfl⟩

/-- A sample raw ForeUP API slot with both fee components known. -/
def exForeUpRaw : ForeUpRawSlot :=
  { time := "07:30", green_fee := PyNum.val 65, cart_fee := PyNum.val 20 }

/-- The canonical slot `_parse_api_response` builds from `exForeUpRaw`. -/
def exForeUpTee : TeeTime :=
  { time := "07:30"
    dt := "2026-02-24T07:30:00"
    green_fee := 65
    cart_fee := 20
    total_per_player := 85
    booking_url := foreUpBookingUrl "19765" "2433" "2026-02-24"
    source := "foreup" }

/-- Witness for `canonical_total_fee_invariant` on the concrete ForeUP API
slot `exForeUpRaw` (green fee 65, cart fee 20, total 85). -/
theorem canonical_total_fee_invariant_witness :
    exForeUpTee.total_per_player = exForeUpTee.green_fee + exForeUpTee.cart_fee :=
  canonical_total_fee_invariant.1 "19765" "2433" "2026-02-24" exForeUpRaw
    exForeUpTee (by with_unfolding_all decide)

/-! ### Claim C9: unmapped platforms are skipped, not errors -/

/-- Claim C9: a course whose platform tag selects no implemented adapter (or
whose ForeUP adapter is disabled) makes `scan_course` return the empty list
without invoking either adapter — the result is independent of both adapter
functions — and appending such a course's completed task to a scan leaves
the whole scan report (error count, slot list, saved document) unchanged,
while the course still counts toward the scanned catalog size. -/
theorem unknown_platform_graceful_skip
    (foreup? : Option (Course → List TeeTime))
    (golfnow : Course → List TeeTime) (c : Course)
    (hf : c.platform = "foreup" → foreup? = none)
    (hg : c.platform ≠ "golfnow") :
    scanCourse foreup? golfnow c = [] ∧
    (∀ date1 date2 now cutoff history₀ pass1 pass2,
      runScanner date1 date2 now cutoff history₀
          (pass1 ++ [(c, TaskOutcome.ok (scanCourse foreup? golfnow c))]) pass2 =
        runScanner date1 date2 now cutoff history₀ pass1 pass2 ∧
      (pass1 ++ [(c, TaskOutcome.ok (scanCourse foreup? golfnow c))]).length =
        pass1.length + 1) := by
  have hempty : scanCourse foreup? golfnow c = [] := by
    unfold scanCourse
    by_cases hfu : c.platform = "foreup"
    · rw [if_pos hfu, hf hfu]
      rfl
    · rw [if_neg hfu, if_neg hg]
      rfl
  refine ⟨hempty, fun date1 date2 now cutoff history₀ pass1 pass2 => ⟨?_, by simp⟩⟩
  unfold runScanner
  rw [List.foldl_append]
  rw [hempty]
  simp [scanStep]

/-- A catalog course on a platform with no adapter (a county booking
system). -/
def exNassauCourse : Course :=
  { name := "Eisenhower Park Golf - Red", city := "East Meadow", state := "NY"
    platform := "nassau_golf" }

/-- Witness for `unknown_platform_graceful_skip`: even with live adapters
installed, the Nassau-county course resolves to the empty slot list. -/
theorem unknown_platform_graceful_skip_witness :
    scanCourse (some fun _ => [{ time := "08:00" }])
      (fun _ => [{ time := "09:00" }]) exNassauCourse = [] :=
  (unknown_platform_graceful_skip (some fun _ => [{ time := "08:00" }])
    (fun _ => [{ time := "09:00" }]) exNassauCourse
    (fun h => absurd h (by with_unfolding_all decide))
    (by with_unfolding_all decide)).1

/-! ### Claim C5: 48-snapshot cap with oldest-first eviction -/

/-- Claim C5: `record_prices` preserves the invariant that every (course,
date) key holds at most 48 snapshots, and on a key that already holds 48 a
recorded snapshot evicts the oldest, keeping the most recent 48 in order
(the entry becomes the old tail followed by the new snapshot). -/
theorem record_prices_snapshot_cap (course_name : String)
    (tee_times : List TeeTime) (date_str now cutoff : String)
    (history : PriceHistory)
    (hcap : ∀ p ∈ history, p.2.snapshots.length ≤ 48) :
    (∀ p ∈ recordPrices course_name tee_times date_str now cutoff history,
      p.2.snapshots.length ≤ 48) ∧
    (∀ e : HistoryEntry,
      (historyKey course_name date_str, e) ∈ history →
      e.snapshots.length = 48 →
      pricedPrices tee_times ≠ [] →
      strLt e.date cutoff = false →
      (historyKey course_name date_str,
        { e with snapshots := e.snapshots.tail ++ [mkSnapshot now tee_times] })
        ∈ recordPrices course_name tee_times date_str now cutoff history) := by
  constructor
  · intro p hp
    unfold recordPrices at hp
    simp only [List.mem_filter] at hp
    have hp₂ := hp.1
    have hcap₁ : ∀ q ∈ (if history.any
          (fun p => p.1 = historyKey course_name date_str) then history
        else history ++ [(historyKey course_name date_str,
          { course := course_name, date := date_str, snapshots := [] })]),
        q.2.snapshots.length ≤ 48 := by
      intro q hq
      split at hq
      · exact hcap q hq
      · rcases List.mem_append.mp hq with h | h
        · exact hcap q h
        · simp only [List.mem_singleton] at h
          subst h
          simp
    split at hp₂
    · exact hcap₁ p hp₂
    · simp only [List.mem_map] at hp₂
      obtain ⟨q, hq, hfq⟩ := hp₂
      by_cases hk : q.1 = historyKey course_name date_str
      · rw [if_pos hk] at hfq
        subst hfq
        exact lastN_length_le 48 _
      · rw [if_neg hk] at hfq
        subst hfq
        exact hcap₁ q hq
  · intro e he hlen hne hdate
    simp only [recordPrices]
    have hany : history.any
        (fun p => p.1 = historyKey course_name date_str) = true :=
      List.any_eq_true.mpr ⟨_, he, by simp⟩
    rw [if_pos hany]
    have hmem₂ := List.mem_map_of_mem
      (fun p : String × HistoryEntry =>
        if p.1 = historyKey course_name date_str then
          (p.1, { p.2 with
                  snapshots := lastN 48 (p.2.snapshots ++ [mkSnapshot now tee_times]) })
        else p) he
    simp only [if_pos (rfl : historyKey course_name date_str = historyKey course_name date_str)] at hmem₂
    rw [if_neg (by simpa using hne)]
    refine List.mem_filter.mpr ⟨?_, by simp [hdate]⟩
    rw [lastN_eq_tail_append _ hlen] at hmem₂
    exact hmem₂

/-- A sample snapshot for pre-filled histories. -/
def exSnap : PriceSnapshot :=
  { timestamp := "t0", min_price := 80, max_price := 120, avg_price := 100
    num_times := 3, num_priced := 3 }

/-- A current slot list with one positively priced slot. -/
def exTimes : List TeeTime :=
  [{ time := "08:00", course_name := "Pine Hill", green_fee := 50,
     total_per_player := 50 }]

/-- A price history whose Pine Hill entry already holds 48 snapshots. -/
def exFullHistory : PriceHistory :=
  [("Pine Hill:2026-10-01",
    { course := "Pine Hill", date := "2026-10-01",
      snapshots := List.replicate 48 exSnap })]

/-- Witness for `record_prices_snapshot_cap`: recording a 49th snapshot onto
the full Pine Hill entry keeps exactly the most recent 48. -/
theorem record_prices_snapshot_cap_witness :
    ("Pine Hill:2026-10-01",
      ({ course := "Pine Hill", date := "2026-10-01",
         snapshots := (List.replicate 48 exSnap).tail ++
           [mkSnapshot "t1" exTimes] } : HistoryEntry))
      ∈ recordPrices "Pine Hill" exTimes "2026-10-01" "t1" "2026-09-12"
          exFullHistory :=
  (record_prices_snapshot_cap "Pine Hill" exTimes "2026-10-01" "t1"
    "2026-09-12" exFullHistory (by with_unfolding_all decide)).2
    { course := "Pine Hill", date := "2026-10-01",
      snapshots := List.replicate 48 exSnap }
    (by with_unfolding_all decide) (by with_unfolding_all decide)
    (by with_unfolding_all decide) (by with_unfolding_all decide)

/-! ### Claim C10: record_prices with no positively priced slot -/

/-- A call of `record_prices` whose slot list has no positively priced slot
and whose tee date is older than the 30-day cutoff does not persist the
entry it creates: the retention sweep deletes it in the same call, so the
history document stays empty. This refutes the unconditional "still creates
(if absent) and persists a history entry for that key" of claim C10. -/
theorem record_prices_stale_empty_not_persisted :
    pricedPrices [] = [] ∧
    strLt "2020-01-01" "2026-09-12" = true ∧
    recordPrices "Pine Hill" [] "2020-01-01" "t0" "2026-09-12" [] = [] := by
  with_unfolding_all decide

/-- Claim C10, amended: when `record_prices` is called with a slot list
holding no positively priced slot, no snapshot is appended anywhere (every
persisted pair is an unchanged pre-existing pair or the freshly created
empty-snapshots entry for the targeted key), the 30-day retention sweep
still runs over the rewritten document, and the freshly created
empty-snapshots entry is persisted provided the key was absent and its tee
date is not older than the cutoff. -/
theorem record_prices_no_priced_slots (course_name : String)
    (tee_times : List TeeTime) (date_str now cutoff : String)
    (history : PriceHistory)
    (hnp : pricedPrices tee_times = []) :
    (∀ p ∈ recordPrices course_name tee_times date_str now cutoff history,
      (p ∈ history ∨ p = (historyKey course_name date_str,
        { course := course_name, date := date_str, snapshots := [] })) ∧
      strLt p.2.date cutoff = false) ∧
    (strLt date_str cutoff = false →
      history.any (fun p => p.1 = historyKey course_name date_str) = false →
      (historyKey course_name date_str,
        ({ course := course_name, date := date_str,
           snapshots := [] } : HistoryEntry))
        ∈ recordPrices course_name tee_times date_str now cutoff history) := by
  constructor
  · intro p hp
    unfold recordPrices at hp
    rw [hnp] at hp
    simp only [List.isEmpty_nil, if_pos] at hp
    simp only [List.mem_filter, Bool.not_eq_eq_eq_not, Bool.not_true] at hp
    refine ⟨?_, hp.2⟩
    have hp₁ := hp.1
    split at hp₁
    · exact Or.inl hp₁
    · rcases List.mem_append.mp hp₁ with h | h
      · exact Or.inl h
      · simp only [List.mem_singleton] at h
        exact Or.inr h
  · intro hdate hany
    simp only [recordPrices]
    rw [hany]
    rw [hnp]
    simp only [Bool.false_eq_true, if_false, List.isEmpty_nil, if_pos]
    refine List.mem_filter.mpr ⟨List.mem_append.mpr (Or.inr (by simp)), ?_⟩
    simp [hdate]

/-- Witness for `record_prices_no_priced_slots`: a no-priced-slots call with
an in-window tee date does persist the fresh empty entry. -/
theorem record_prices_no_priced_slots_witness :
    ("Pine Hill:2026-10-01",
      ({ course := "Pine Hill", date := "2026-10-01",
         snapshots := [] } : HistoryEntry))
      ∈ recordPrices "Pine Hill" [] "2026-10-01" "t0" "2026-09-12" [] :=
  (record_prices_no_priced_slots "Pine Hill" [] "2026-10-01" "t0"
    "2026-09-12" [] (by with_unfolding_all decide)).2
    (by with_unfolding_all decide) (by with_unfolding_all decide)

/-! ### Claim C6: marketplace synthesis fallback -/

set_option maxRecDepth 8000 in
/-- Claim C6: when the marketplace summary reports a nonzero availability
count and a positive minimum price but the detail fetch parses to zero
usable slots, `get_course_tee_times` returns exactly `min(count, 5)`
synthesized slots, each priced at the summary's minimum price
(`total_per_player = green_fee = minPrice`, `cart_fee = 0`) at the fixed
placeholder times, which are evenly spaced 120 minutes apart; and when the
count is zero or the minimum price is zero, it returns the empty list. -/
theorem golfnow_synthesis_fallback (gid ds : String) (summary : GnSummary)
    (detail : List GnRawSlot) (hgid : gid ≠ "")
    (hdetail : parseFeaturedResult detail gid ds = []) :
    (0 < summary.numberOfTeeTimesAvailable → 0 < summary.minPrice →
      (getCourseTeeTimes (some gid) ds (some summary) detail).length =
        min summary.numberOfTeeTimesAvailable 5 ∧
      (∀ t ∈ getCourseTeeTimes (some gid) ds (some summary) detail,
        t.green_fee = summary.minPrice ∧ t.cart_fee = 0 ∧
        t.total_per_player = summary.minPrice ∧ t.source = "golfnow") ∧
      (getCourseTeeTimes (some gid) ds (some summary) detail).map
          (fun t => t.time) =
        sample_times.take (min summary.numberOfTeeTimesAvailable 5) ∧
      (∀ t ∈ getCourseTeeTimes (some gid) ds (some summary) detail,
        (parseHM t.time).isSome = true) ∧
      List.Chain' (fun a b => (parseHM a).map (fun m => m + 120) = parseHM b)
        ((getCourseTeeTimes (some gid) ds (some summary) detail).map
          (fun t => t.time))) ∧
    (summary.numberOfTeeTimesAvailable = 0 ∨ summary.minPrice = 0 →
      getCourseTeeTimes (some gid) ds (some summary) detail = []) := by
  have hout : getCourseTeeTimes (some gid) ds (some summary) detail =
      if summary.numberOfTeeTimesAvailable = 0 then []
      else synthesizeFromSummary summary gid ds summary.minPrice
        summary.maxPrice := by
    simp only [getCourseTeeTimes, strFalsy]
    rw [if_neg (by simpa using hgid), hdetail]
    simp
  constructor
  · intro hN hmp
    rw [hout, if_neg (Nat.pos_iff_ne_zero.mp hN)]
    have hsynth : synthesizeFromSummary summary gid ds summary.minPrice
        summary.maxPrice =
        (sample_times.take (min summary.numberOfTeeTimesAvailable 5)).map
          (fun t =>
            { time := t
              dt := ds ++ "T" ++ t ++ ":00"
              holes := 18
              players_available := 4
              green_fee := summary.minPrice
              cart_fee := 0
              total_per_player := summary.minPrice
              rate_type := "standard"
              has_special := false
              special_discount := 0
              booking_url := gnBookingUrl gid
              source := "golfnow" }) := by
      simp only [synthesizeFromSummary]
      rw [if_neg (by simp [Nat.pos_iff_ne_zero.mp hN, ne_of_gt hmp])]
    rw [hsynth]
    have hmaptime : ((sample_times.take
        (min summary.numberOfTeeTimesAvailable 5)).map
          (fun t =>
            ({ time := t
               dt := ds ++ "T" ++ t ++ ":00"
               holes := 18
               players_available := 4
               green_fee := summary.minPrice
               cart_fee := 0
               total_per_player := summary.minPrice
               rate_type := "standard"
               has_special := false
               special_discount := 0
               booking_url := gnBookingUrl gid
               source := "golfnow" } : TeeTime))).map (fun t => t.time) =
        sample_times.take (min summary.numberOfTeeTimesAvailable 5) := by
      rw [List.map_map]
      exact List.map_id' _
    refine ⟨?_, ?_, hmaptime, ?_, ?_⟩
    · simp only [List.length_map, List.length_take, sample_times,
        List.length_cons, List.length_nil]
      omega
    · intro t ht
      simp only [List.mem_map] at ht
      obtain ⟨s, _, hs⟩ := ht
      subst hs
      exact ⟨rfl, rfl, rfl, rfl⟩
    · intro t ht
      simp only [List.mem_map] at ht
      obtain ⟨s, hs, hst⟩ := ht
      subst hst
      have hmem : s ∈ sample_times := List.mem_of_mem_take hs
      fin_cases hmem <;> (dsimp only; with_unfolding_all decide)
    · rw [hmaptime]
      have hchain : List.Chain'
          (fun a b => (parseHM a).map (fun m => m + 120) = parseHM b)
          sample_times := by
        simp only [sample_times, List.chain'_cons, List.chain'_singleton,
          and_true]
        refine ⟨?_, ?_, ?_, ?_⟩ <;> with_unfolding_all decide
      have hpre := List.take_prefix
        (min summary.numberOfTeeTimesAvailable 5) sample_times
      exact List.Chain'.prefix hchain hpre
  · intro hzero
    rw [hout]
    rcases hzero with h | h
    · rw [if_pos h]
    · split
      · rfl
      · simp [synthesizeFromSummary, h]

/-- A sample facility summary: 3 tee times available, prices 45 to 89. -/
def exSummary : GnSummary :=
  { numberOfTeeTimesAvailable := 3, minPrice := 45, maxPrice := 89 }

/-- Witness for `golfnow_synthesis_fallback`: an available-count of 3 with an
empty detail fetch yields exactly 3 synthesized slots. -/
theorem golfnow_synthesis_fallback_witness :
    (getCourseTeeTimes (some "4048") "2026-02-24" (some exSummary) []).length =
      min exSummary.numberOfTeeTimesAvailable 5 :=
  ((golfnow_synthesis_fallback "4048" "2026-02-24" exSummary []
    (by decide) (by with_unfolding_all decide)).1
    (by with_unfolding_all decide) (by with_unfolding_all decide)).1

/-! ### Claim C8: per-course failures never abort the scan -/

theorem foldl_scanStep_errors (date_str now cutoff : String)
    (pass : List (Course × TaskOutcome)) :
    ∀ st : ScanState, (pass.foldl (scanStep date_str now cutoff) st).errors =
      st.errors + (pass.filter (fun t => t.2 = TaskOutcome.exn)).length := by
  induction pass with
  | nil => intro st; simp
  | cons hd tl ih =>
    intro st
    rw [List.foldl_cons, ih]
    cases h2 : hd.2 with
    | ok times =>
      simp only [scanStep, h2]
      split <;> simp [List.filter_cons, h2]
    | exn =>
      simp [scanStep, h2, List.filter_cons]
      omega

theorem foldl_scanStep2_errors (date_str now cutoff : String)
    (pass : List (Course × TaskOutcome)) :
    ∀ st : ScanState, (pass.foldl (scanStep2 date_str now cutoff) st).errors =
      st.errors := by
  induction pass with
  | nil => intro st; simp
  | cons hd tl ih =>
    intro st
    rw [List.foldl_cons, ih]
    cases h2 : hd.2 with
    | ok times => simp only [scanStep2, h2]; split <;> rfl
    | exn => simp [scanStep2, h2]

theorem foldl_scanStep_results_mono (date_str now cutoff : String)
    (pass : List (Course × TaskOutcome)) :
    ∀ st : ScanState, ∀ t ∈ st.all_results,
      t ∈ (pass.foldl (scanStep date_str now cutoff) st).all_results := by
  induction pass with
  | nil => intro st t ht; simpa using ht
  | cons hd tl ih =>
    intro st t ht
    rw [List.foldl_cons]
    refine ih _ t ?_
    cases h2 : hd.2 with
    | ok times =>
      simp only [scanStep, h2]
      split
      · exact ht
      · simp [ht]
    | exn => simpa [scanStep, h2] using ht

theorem foldl_scanStep2_results_mono (date_str now cutoff : String)
    (pass : List (Course × TaskOutcome)) :
    ∀ st : ScanState, ∀ t ∈ st.all_results,
      t ∈ (pass.foldl (scanStep2 date_str now cutoff) st).all_results := by
  induction pass with
  | nil => intro st t ht; simpa using ht
  | cons hd tl ih =>
    intro st t ht
    rw [List.foldl_cons]
    refine ih _ t ?_
    cases h2 : hd.2 with
    | ok times =>
      simp only [scanStep2, h2]
      split
      · exact ht
      · simp [ht]
    | exn => simpa [scanStep2, h2] using ht

theorem foldl_scanStep_results_of_ok (date_str now cutoff : String)
    (pass : List (Course × TaskOutcome)) :
    ∀ st : ScanState, ∀ c ts, (c, TaskOutcome.ok ts) ∈ pass →
      ∀ t ∈ ts, t ∈ (pass.foldl (scanStep date_str now cutoff) st).all_results := by
  induction pass with
  | nil => intro st c ts h; simp at h
  | cons hd tl ih =>
    intro st c ts hmem t ht
    rw [List.foldl_cons]
    rcases List.mem_cons.mp hmem with heq | htl
    · subst heq
      refine foldl_scanStep_results_mono date_str now cutoff tl _ t ?_
      have hne : ts.isEmpty = false :=
        List.isEmpty_eq_false.mpr (List.ne_nil_of_mem ht)
      simp [scanStep, hne, ht]
    · exact ih _ c ts htl t ht

/-- Claim C8: in any scan, every per-course task that raises is caught and
counted in the error count (first pass only, per the code), every slot of
every non-failing task remains in the combined result, and the scan-result
document is still written from the combined result — no course's failure
aborts the scan. -/
theorem run_scanner_partial_failure (date1 date2 now cutoff : String)
    (history₀ : PriceHistory) (pass1 pass2 : List (Course × TaskOutcome)) :
    (runScanner date1 date2 now cutoff history₀ pass1 pass2).state.errors =
      (pass1.filter (fun t => t.2 = TaskOutcome.exn)).length ∧
    (∀ c ts, (c, TaskOutcome.ok ts) ∈ pass1 → ∀ t ∈ ts,
      t ∈ (runScanner date1 date2 now cutoff history₀ pass1 pass2).state.all_results) ∧
    (runScanner date1 date2 now cutoff history₀ pass1 pass2).saved =
      saveScanResults
        (runScanner date1 date2 now cutoff history₀ pass1 pass2).state.history
        (runScanner date1 date2 now cutoff history₀ pass1 pass2).state.all_results := by
  refine ⟨?_, ?_, rfl⟩
  · unfold runScanner
    rw [foldl_scanStep2_errors, foldl_scanStep_errors]
    simp
  · intro c ts hmem t ht
    unfold runScanner
    exact foldl_scanStep2_results_mono date2 now cutoff pass2 _ t
      (foldl_scanStep_results_of_ok date1 now cutoff pass1 _ c ts hmem t ht)

/-- A catalog course used in the scan example. -/
def exScanCourse : Course := { name := "Dyker Beach Golf Course" }

/-- A decorated slot used in the scan example. -/
def exScanTee : TeeTime :=
  { time := "08:00", course_name := "Dyker Beach Golf Course",
    green_fee := 60, total_per_player := 60 }

/-- A 20-course scan in which 3 per-course tasks raise. -/
def exPass1 : List (Course × TaskOutcome) :=
  List.replicate 17 (exScanCourse, TaskOutcome.ok [exScanTee]) ++
    List.replicate 3 (exScanCourse, TaskOutcome.exn)

/-- Witness for `run_scanner_partial_failure`: 3 failures out of 20 tasks
yield an error count of 3 while the successful slots stay in the combined
result. -/
theorem run_scanner_partial_failure_witness :
    (runScanner "2026-02-24" "2026-02-25" "t0" "2026-01-25" []
      exPass1 []).state.errors = 3 ∧
    exScanTee ∈ (runScanner "2026-02-24" "2026-02-25" "t0" "2026-01-25" []
      exPass1 []).state.all_results := by
  constructor
  · rw [(run_scanner_partial_failure "2026-02-24" "2026-02-25" "t0"
      "2026-01-25" [] exPass1 []).1]
    with_unfolding_all decide
  · exact (run_scanner_partial_failure "2026-02-24" "2026-02-25" "t0"
      "2026-01-25" [] exPass1 []).2.1 exScanCourse [exScanTee]
      (by with_unfolding_all decide) exScanTee (by decide)

/-! ### Claim C1: course-summary sort order -/

theorem summarize_min_price_spec (g : String × List TeeTime) :
    0 ≤ (summarize g).min_price ∧
    (0 < (summarize g).min_price ↔ pricedPrices g.2 ≠ []) := by
  simp only [summarize]
  by_cases h : (pricedPrices g.2).isEmpty
  · rw [if_pos h]
    simp only [List.isEmpty_iff] at h
    simp [h]
  · rw [if_neg h]
    simp only [List.isEmpty_eq_true] at h
    have hpos : 0 < pyMin (pricedPrices g.2) :=
      pyMin_pos _ h (pricedPrices_pos g.2)
    simp [hpos, le_of_lt hpos, h]

/-- A positively priced slot of one course. -/
def exPricedSlot : TeeTime :=
  { time := "08:00", course_name := "Ash Brook Golf Course",
    green_fee := 50, total_per_player := 50 }

/-- A zero-priced slot of another course. -/
def exUnpricedSlot : TeeTime :=
  { time := "09:00", course_name := "Bethpage State Park - Black",
    total_per_player := 0 }

/-- A scan result with one priced and one unpriced course. -/
def exMixedResults : List TeeTime := [exPricedSlot, exUnpricedSlot]

/-- Claim C1, as stated, is false: a course with no positively priced slot
does not sort after the priced courses. Its summary's `min_price` is set to
0 (the large lookup-default sentinel in the sort key is dead code because
every summary carries a `min_price`), so the ascending sort places it
before every positively priced course: here the unpriced Bethpage course
precedes the priced Ash Brook course. -/
theorem save_scan_results_unpriced_first_counterexample :
    (saveScanResults [] exMixedResults).courseSummaries.map
        (fun s => s.course_name) =
      ["Bethpage State Park - Black", "Ash Brook Golf Course"] ∧
    (exMixedResults.filter
      (fun t => t.course_name = "Bethpage State Park - Black")).all
        (fun t => decide (t.total_per_player ≤ 0)) = true ∧
    (exMixedResults.filter
      (fun t => t.course_name = "Ash Brook Golf Course")).any
        (fun t => decide (0 < t.total_per_player)) = true := by
  with_unfolding_all decide

/-- Claim C1, amended: the per-course summaries are sorted ascending by min
price; a course with no positively priced slot gets `min_price = 0` (its
summary's min price is positive exactly when it has a priced slot), and it
therefore appears before — not after — every course whose min price is
positive: in the sorted list a zero-min summary never follows a
positive-min one. -/
theorem save_scan_results_sorted_unpriced_first (history : PriceHistory)
    (results : List TeeTime) :
    (saveScanResults history results).courseSummaries.Pairwise
      (fun a b => a.min_price ≤ b.min_price) ∧
    (∀ s ∈ (saveScanResults history results).courseSummaries,
      ∃ g ∈ groupByCourse results, s = summarize g ∧
        (0 < s.min_price ↔ pricedPrices g.2 ≠ []) ∧ 0 ≤ s.min_price) ∧
    (saveScanResults history results).courseSummaries.Pairwise
      (fun a b => b.min_price = 0 → a.min_price = 0) := by
  have hmem : ∀ s ∈ (saveScanResults history results).courseSummaries,
      ∃ g ∈ groupByCourse results, s = summarize g ∧
        (0 < s.min_price ↔ pricedPrices g.2 ≠ []) ∧ 0 ≤ s.min_price := by
    intro s hs
    simp only [saveScanResults, List.mem_mergeSort, List.mem_map] at hs
    obtain ⟨g, hg, hgs⟩ := hs
    subst hgs
    exact ⟨g, hg, rfl, (summarize_min_price_spec g).2,
      (summarize_min_price_spec g).1⟩
  have hsorted : (saveScanResults history results).courseSummaries.Pairwise
      (fun a b => a.min_price ≤ b.min_price) := by
    simp only [saveScanResults]
    exact sorted_mergeSortKey (fun s : CourseSummary => s.min_price) _
  refine ⟨hsorted, hmem, ?_⟩
  refine hsorted.imp_of_mem ?_
  intro a b ha hb hle hb0
  obtain ⟨_, _, _, _, ha0⟩ := hmem a ha
  exact le_antisymm (hb0 ▸ hle) ha0

/-- The summary `save_scan_results` builds for the unpriced Bethpage
course. -/
def exUnpricedSummary : CourseSummary :=
  { course_name := "Bethpage State Park - Black", city := "", state := ""
    ctype := "public", rating := 0, par := 72, holes := 18
    lat := none, lng := none, min_price := 0, max_price := 0
    avg_price := 0, num_times := 1 }

/-- Witness for `save_scan_results_sorted_unpriced_first` on the concrete
mixed scan result. -/
theorem save_scan_results_sorted_unpriced_first_witness :
    (saveScanResults [] exMixedResults).courseSummaries.Pairwise
      (fun a b => b.min_price = 0 → a.min_price = 0) ∧
    (∃ g ∈ groupByCourse exMixedResults, exUnpricedSummary = summarize g ∧
      (0 < exUnpricedSummary.min_price ↔ pricedPrices g.2 ≠ []) ∧
      0 ≤ exUnpricedSummary.min_price) :=
  ⟨(save_scan_results_sorted_unpriced_first [] exMixedResults).2.2,
   (save_scan_results_sorted_unpriced_first [] exMixedResults).2.1
     exUnpricedSummary (by with_unfolding_all decide)⟩

/-! ### Claim C3: discount-alert emission -/

theorem sorted_mergeSortKeyDesc {α : Type} (f : α → ℚ) (l : List α) :
    (l.mergeSort (fun a b => decide (f b ≤ f a))).Pairwise
      (fun a b => f b ≤ f a) := by
  have h := @List.sorted_mergeSort _ (fun a b => decide (f b ≤ f a))
    (fun a b c h1 h2 => by
      simp only [decide_eq_true_eq] at h1 h2 ⊢; exact le_trans h2 h1)
    (fun a b => by simpa using le_total (f b) (f a)) l
  exact h.imp (by simp)

theorem alertForCourse_course (history : PriceHistory) (n : String)
    (ts : List TeeTime) (a : PriceAlert)
    (h : alertForCourse history n ts = some a) : a.course = n := by
  simp only [alertForCourse] at h
  split at h
  · exact absurd h (by simp)
  · split at h
    · exact absurd h (by simp)
    · split at h
      · split at h
        · simp only [Option.some.injEq] at h
          subst h
          rfl
        · exact absurd h (by simp)
      · exact absurd h (by simp)

theorem alertForCourse_some_val (history : PriceHistory) (n : String)
    (ts : List TeeTime) (a : PriceAlert)
    (h : alertForCourse history n ts = some a) :
    a = { course := n
          current_low := currentMin ts
          historical_avg := round2 (histAvg history n)
          discount_pct := round1 (rawDiscountPct (histAvg history n)
            (currentMin ts)) } := by
  simp only [alertForCourse] at h
  split at h
  · exact absurd h (by simp)
  · split at h
    · exact absurd h (by simp)
    · split at h
      · split at h
        · simp only [Option.some.injEq] at h
          exact h.symm
        · exact absurd h (by simp)
      · exact absurd h (by simp)

theorem alertForCourse_isSome_iff (history : PriceHistory) (n : String)
    (ts : List TeeTime) :
    (alertForCourse history n ts).isSome = true ↔
      (pricedPrices ts ≠ [] ∧ courseSnapshotAvgs history n ≠ [] ∧
       0 < histAvg history n ∧
       15 ≤ rawDiscountPct (histAvg history n) (currentMin ts)) := by
  simp only [alertForCourse]
  split
  · rename_i h1
    simp only [List.isEmpty_eq_true] at h1
    simp [h1]
  · rename_i h1
    simp only [List.isEmpty_eq_true] at h1
    split
    · rename_i h2
      simp only [List.isEmpty_eq_true] at h2
      simp [h1, h2]
    · rename_i h2
      simp only [List.isEmpty_eq_true] at h2
      split
      · rename_i h3
        split
        · rename_i h4
          simp [h1, h2, h3, h4]
        · rename_i h4
          simp [h1, h2, h3, h4]
      · rename_i h3
        simp [h1, h2, h3]

/-- Claim C3: `detect_price_drops` returns its alerts sorted descending by
discount percentage, and for every course bucket of the current scan an
alert for that course is emitted exactly when the course has a positively
priced current slot, at least one recorded historical snapshot, a positive
historical average, and an unrounded discount of at least 15%; every alert
for the course carries that discount rounded to one decimal place. -/
theorem detect_price_drops_spec (history : PriceHistory)
    (current : List TeeTime) :
    (detectPriceDrops history current).Pairwise
      (fun a b => b.discount_pct ≤ a.discount_pct) ∧
    ∀ name times, (name, times) ∈ groupByCourse current →
      (((∃ a ∈ detectPriceDrops history current, a.course = name) ↔
        (pricedPrices times ≠ [] ∧ courseSnapshotAvgs history name ≠ [] ∧
         0 < histAvg history name ∧
         15 ≤ rawDiscountPct (histAvg history name) (currentMin times))) ∧
       ∀ a ∈ detectPriceDrops history current, a.course = name →
         a.discount_pct = round1 (rawDiscountPct (histAvg history name)
           (currentMin times))) := by
  constructor
  · simp only [detectPriceDrops]
    exact sorted_mergeSortKeyDesc (fun a : PriceAlert => a.discount_pct) _
  · intro name times hmem
    have huniq : ∀ g ∈ groupByCourse current, g.1 = name → g.2 = times := by
      intro g hg hfst
      have hgpair : (name, g.2) ∈ groupByCourse current := by
        rw [← hfst]
        exact hg
      exact keyed_mem_unique (groupByCourse_keys_nodup current) hgpair hmem
    constructor
    · constructor
      · rintro ⟨a, ha, hcourse⟩
        simp only [detectPriceDrops, List.mem_mergeSort] at ha
        obtain ⟨g, hg, hfg⟩ := List.mem_filterMap.mp ha
        have hfst : g.1 = name := by
          rw [← hcourse]
          exact (alertForCourse_course _ _ _ _ hfg).symm
        have hsnd := huniq g hg hfst
        rw [hfst, hsnd] at hfg
        exact (alertForCourse_isSome_iff history name times).mp
          (by simp [hfg])
      · intro hcond
        have hsome := (alertForCourse_isSome_iff history name times).mpr hcond
        obtain ⟨a, ha⟩ := Option.isSome_iff_exists.mp hsome
        refine ⟨a, ?_, alertForCourse_course _ _ _ _ ha⟩
        simp only [detectPriceDrops, List.mem_mergeSort]
        exact List.mem_filterMap.mpr ⟨(name, times), hmem, ha⟩
    · intro a ha hcourse
      simp only [detectPriceDrops, List.mem_mergeSort] at ha
      obtain ⟨g, hg, hfg⟩ := List.mem_filterMap.mp ha
      have hfst : g.1 = name := by
        rw [← hcourse]
        exact (alertForCourse_course _ _ _ _ hfg).symm
      have hsnd := huniq g hg hfst
      rw [hfst, hsnd] at hfg
      rw [alertForCourse_some_val _ _ _ _ hfg]

/-- Two historical snapshots for Pine Hill with average prices 80 and
100. -/
def exSnap80 : PriceSnapshot :=
  { timestamp := "t1", min_price := 70, max_price := 95, avg_price := 80
    num_times := 4, num_priced := 4 }

/-- The second Pine Hill snapshot (average price 100). -/
def exSnap100 : PriceSnapshot :=
  { timestamp := "t2", min_price := 85, max_price := 120, avg_price := 100
    num_times := 5, num_priced := 5 }

/-- A price history holding the two Pine Hill snapshots
(historical average 90). -/
def exPineHistory : PriceHistory :=
  [("Pine Hill:2026-10-01",
    { course := "Pine Hill", date := "2026-10-01",
      snapshots := [exSnap80, exSnap100] })]

/-- A current scan with one Pine Hill slot at 75 per player. -/
def exPineCurrent : List TeeTime :=
  [{ time := "08:00", course_name := "Pine Hill", green_fee := 75,
     total_per_player := 75 }]

/-- Witness for `detect_price_drops_spec`: with historical average 90 and a
current minimum of 75 the discount is about 16.7%, so an alert for Pine
Hill is emitted. -/
theorem detect_price_drops_spec_witness :
    ∃ a ∈ detectPriceDrops exPineHistory exPineCurrent,
      a.course = "Pine Hill" :=
  ((detect_price_drops_spec exPineHistory exPineCurrent).2 "Pine Hill"
    exPineCurrent (by with_unfolding_all decide)).1.mpr
    (by with_unfolding_all decide)
